import Mathlib

/-!
Verification of the Document-management backend (three AWS Lambda sources:
`file_embedding_processing/src/main.py`, `response_generation/src/main.py`,
`upload_files_and_delete_files/src/main.py`) against its design document.

Texts are modelled as `List Char`; external collaborators (S3, Qdrant, the
embedding and completion providers) are modelled as oracle fields of explicit
world structures, and each handler returns its HTTP-style response together
with a trace of the external calls it issued.
-/

namespace DocMgmt

/-- Text is a sequence of characters. -/
abbrev Text := List Char

/-- The whitespace characters recognised by Python's `str.split()`
(ASCII subset: space, tab, newline, carriage return, vertical tab, form feed). -/
def isWS (c : Char) : Bool :=
  c == ' ' || c == '\t' || c == '\n' || c == '\r' || c == Char.ofNat 11 || c == Char.ofNat 12

/-- Accumulator worker for `splitWS`: `acc` holds the current token reversed. -/
def splitWSAux : List Char → List Char → List Text
  | [], [] => []
  | [], acc => [acc.reverse]
  | c :: rest, acc =>
    if isWS c then
      match acc with
      | [] => splitWSAux rest []
      | _ => acc.reverse :: splitWSAux rest []
    else splitWSAux rest (c :: acc)

/-- Python `text.split()`: split on runs of whitespace, discarding empty tokens. -/
def splitWS (s : Text) : List Text :=
  splitWSAux s []

/-- Python `" ".join(tokens)`: single-space separated concatenation. -/
def joinTokens : List Text → Text
  | [] => []
  | [t] => t
  | t :: ts => t ++ ' ' :: joinTokens ts

/-- `MAX_CONTEXT_TOKENS` from `response_generation/src/main.py`. -/
def MAX_CONTEXT_TOKENS : Nat := 7500

/-- `truncate_context(text, max_tokens)` from `response_generation/src/main.py`:
whitespace-split the text; if more than `max_tokens` tokens, return the first
`max_tokens` tokens rejoined with single spaces, else return the text unchanged. -/
def truncate_context (text : Text) (max_tokens : Nat) : Text :=
  let tokens := splitWS text
  if tokens.length > max_tokens then joinTokens (tokens.take max_tokens) else text

/-- Modelled from the spec: the Chunker.  `chunk_text` in
`file_embedding_processing/src/main.py` delegates to langchain's
`CharacterTextSplitter`, whose code is not part of this repository; per §4.3
the chunker "splits by character count, producing fixed-size windows with the
specified overlap between consecutive windows; the final window may be shorter
than `size`."  Window `i` therefore starts at offset `i * (size - overlap)`. -/
def chunk_text (text : Text) (size overlap : Nat) : List Text :=
  if text.length ≤ size ∨ size ≤ overlap then [text]
  else text.take size :: chunk_text (text.drop (size - overlap)) size overlap
termination_by text.length
decreasing_by
  simp only [List.length_drop]
  omega

/-- A handler response: HTTP-style status code and body message. -/
structure Resp where
  statusCode : Nat
  message : String
deriving DecidableEq

/-! ### Ingestion lambda (`file_embedding_processing/src/main.py`) -/

/-- The Qdrant side of the world as the ingestion lambda observes it:
the collection names a successful `get_collections` listing would return,
whether that listing call raises, and which `create_collection` calls raise. -/
structure QdrantWorld where
  collections : List String
  listingFails : Bool
  createFails : String → Bool

/-- `collection_exists_safe(client, collection_name)`: membership in the
listing; any exception from the listing call is caught and yields `False`. -/
def collection_exists_safe (w : QdrantWorld) (collection_name : String) : Bool :=
  if w.listingFails then false else collection_name ∈ w.collections

/-- The vectorstore handle returned by `create_vectorstore`. -/
structure VectorStore where
  collection_name : String
deriving DecidableEq

/-- `create_vectorstore(collection_name)`: if the safe existence check fails,
attempt creation; a creation exception is logged and re-raised (modelled as
`Except.error`).  The second component records the creation attempts issued. -/
def create_vectorstore (w : QdrantWorld) (collection_name : String) :
    Except String VectorStore × List String :=
  if collection_exists_safe w collection_name = false then
    if w.createFails collection_name then
      (Except.error "Failed to create collection", [collection_name])
    else (Except.ok ⟨collection_name⟩, [collection_name])
  else (Except.ok ⟨collection_name⟩, [])

/-- One object returned by the S3 prefix listing, together with the result of
`read_file_from_s3` on it (`none`: unsupported suffix or read/extract error). -/
structure S3File where
  key : String
  text : Option Text
deriving DecidableEq

/-- The external world of the ingestion lambda, parametrised by the embedding
vector type `V`.  `chunker` stands for langchain's `CharacterTextSplitter`
(external code) as invoked by `chunk_text`; `embed` for the per-chunk
`embed_documents` call; `s3list` maps a key prefix to the listed objects;
`uploadFails` says whether the bulk `upload_collection` call raises. -/
structure IngestWorld (V : Type) where
  s3list : String → List S3File
  qdrant : QdrantWorld
  chunker : Text → List Text
  embed : Text → V
  uploadFails : Bool

/-- `generate_embeddings(text)`: chunk, then embed each chunk individually. -/
def generate_embeddings (w : IngestWorld V) (text : Text) : List V × List Text :=
  let chunks := w.chunker text
  (chunks.map w.embed, chunks)

/-- The chunks a listed file contributes to the batch: none when extraction
returned `None` or the empty string (the handler's `if text:` guard). -/
def fileChunks (w : IngestWorld V) (f : S3File) : List Text :=
  match f.text with
  | some t => if t = [] then [] else w.chunker t
  | none => []

/-- The batch-level metadata attached to every payload. -/
structure Metadata where
  context_id : String
  user_id : String
  file_count : Nat
deriving DecidableEq

/-- One payload written by `store_embeddings_in_qdrant`:
the metadata copy extended with `chunk_index` and `text`. -/
structure Payload where
  context_id : String
  user_id : String
  file_count : Nat
  chunk_index : Nat
  text : Text
deriving DecidableEq

/-- The payload list built by `store_embeddings_in_qdrant`: enumerate
`zip(embeddings, chunks)` and extend the metadata with index and text. -/
def qdrantPayloads (md : Metadata) (embeddings : List V) (chunks : List Text) :
    List Payload :=
  ((embeddings.zip chunks).enum).map (fun p =>
    { context_id := md.context_id, user_id := md.user_id,
      file_count := md.file_count, chunk_index := p.1, text := p.2.2 })

/-- The single bulk `upload_collection` call issued by
`store_embeddings_in_qdrant`. -/
structure StoreCall (V : Type) where
  collection_name : String
  vectors : List V
  payload : List Payload
deriving DecidableEq

/-- The ingestion request body; `none` models a missing key. -/
structure IngestRequest where
  bucket_name : Option String
  user_id : Option String
  context_id : Option String
  name : Option String
deriving DecidableEq

/-- Observable outcome of one ingestion call: the response plus a trace of the
external calls (S3 listings, the collection identity handed to
`create_vectorstore`, creation attempts, bulk writes). -/
structure IngestOutcome (V : Type) where
  resp : Resp
  listCalls : Nat
  collectionUsed : Option String
  createAttempts : List String
  storeCalls : List (StoreCall V)
deriving DecidableEq

/-- `lambda_handler` of `file_embedding_processing/src/main.py`.  A missing
required key raises `KeyError`, caught by the blanket handler (500, generic
message) before any external call.  An empty listing (S3 omits `Contents`)
returns 404 before any collection work.  Otherwise: derive the collection
identity from the file count, ensure the collection, accumulate chunks and
embeddings over the files in listing order, and issue one bulk write. -/
def lambda_handler_ingest (w : IngestWorld V) (req : IngestRequest) :
    IngestOutcome V :=
  match req.bucket_name, req.user_id, req.context_id, req.name with
  | some _bucket_name, some user_id, some context_id, some name =>
    let pfx := user_id ++ "/" ++ context_id ++ "/" ++ name
    let files := w.s3list pfx
    if files = [] then
      { resp := ⟨404, "No files found for the specified prefix"⟩,
        listCalls := 1, collectionUsed := none, createAttempts := [],
        storeCalls := [] }
    else
      let collection_name :=
        if files.length > 1 then "coll_" ++ user_id ++ "_" ++ context_id
        else "one_" ++ user_id ++ "_" ++ context_id
      match create_vectorstore w.qdrant collection_name with
      | (Except.error _, attempts) =>
        { resp := ⟨500, "An error occurred"⟩, listCalls := 1,
          collectionUsed := some collection_name, createAttempts := attempts,
          storeCalls := [] }
      | (Except.ok vs, attempts) =>
        let processed := files.map (fun f =>
          match f.text with
          | some t =>
            if t = [] then (([] : List V), ([] : List Text))
            else generate_embeddings w t
          | none => ([], []))
        let combined_embeddings := (processed.map Prod.fst).flatten
        let combined_chunks := (processed.map Prod.snd).flatten
        let md : Metadata :=
          { context_id := context_id, user_id := user_id,
            file_count := files.length }
        let call : StoreCall V :=
          { collection_name := vs.collection_name,
            vectors := combined_embeddings,
            payload := qdrantPayloads md combined_embeddings combined_chunks }
        if w.uploadFails then
          { resp := ⟨500, "An error occurred"⟩, listCalls := 1,
            collectionUsed := some collection_name, createAttempts := attempts,
            storeCalls := [call] }
        else
          { resp := ⟨200, "Embeddings processed and stored successfully"⟩,
            listCalls := 1, collectionUsed := some collection_name,
            createAttempts := attempts, storeCalls := [call] }
  | _, _, _, _ =>
    { resp := ⟨500, "An error occurred"⟩, listCalls := 0,
      collectionUsed := none, createAttempts := [], storeCalls := [] }

/-! ### Query lambda (`response_generation/src/main.py`) -/

/-- One Qdrant search result: `payloadText` is the payload's `text` field
(`none` when the payload lacks the key). -/
structure SearchResult where
  payloadText : Option Text
deriving DecidableEq

/-- External world of the query lambda: question embedding, similarity search
over (collection name, query vector), the completion provider, and failure
flags for each external call. -/
structure QueryWorld (V : Type) where
  embedQ : String → V
  embedFails : Bool
  search : String → V → List SearchResult
  searchFails : Bool
  completion : Text → String → String
  completionFails : Bool

/-- The literal placeholder substituted for a missing payload `text` field. -/
def NO_TEXT_FOUND : Text := "No text found".toList

/-- Result of `fetch_relevant_context`, with counts of the external calls
(embedding, search) it issued. -/
structure FetchResult where
  ctx : Except String Text
  embedCalls : Nat
  searchCalls : Nat

/-- `fetch_relevant_context(collection_name, question)`: embed the question,
search, join each result's `text` (placeholder when absent) with single
spaces, truncate to `MAX_CONTEXT_TOKENS`; any exception propagates. -/
def fetch_relevant_context (w : QueryWorld V) (collection_name : String)
    (question : String) : FetchResult :=
  if w.embedFails then
    { ctx := Except.error "Error generating embedding", embedCalls := 1,
      searchCalls := 0 }
  else if w.searchFails then
    { ctx := Except.error "Error fetching relevant context", embedCalls := 1,
      searchCalls := 1 }
  else
    let search_results := w.search collection_name (w.embedQ question)
    let context_text :=
      joinTokens (search_results.map (fun r => r.payloadText.getD NO_TEXT_FOUND))
    { ctx := Except.ok (truncate_context context_text MAX_CONTEXT_TOKENS),
      embedCalls := 1, searchCalls := 1 }

/-- The query request body; `none` models a missing key. -/
structure QueryRequest where
  collection_name : Option String
  question : Option String
deriving DecidableEq

/-- Observable outcome of one query call: the response plus counts of the
external calls issued. -/
structure QueryOutcome where
  resp : Resp
  embedCalls : Nat
  searchCalls : Nat
  completionCalls : Nat
deriving DecidableEq

/-- `lambda_handler` of `response_generation/src/main.py`.  A missing key
raises `KeyError` (message is the quoted key), caught by the blanket handler
as a 500 before any external call.  An empty context gives 404 without
calling the completion provider; otherwise `get_ans` is invoked once and its
failure surfaces as a 500. -/
def lambda_handler_query (w : QueryWorld V) (req : QueryRequest) :
    QueryOutcome :=
  match req.collection_name with
  | none =>
    { resp := ⟨500, "'collection_name'"⟩, embedCalls := 0, searchCalls := 0,
      completionCalls := 0 }
  | some collection_name =>
    match req.question with
    | none =>
      { resp := ⟨500, "'question'"⟩, embedCalls := 0, searchCalls := 0,
        completionCalls := 0 }
    | some question =>
      let fr := fetch_relevant_context w collection_name question
      match fr.ctx with
      | Except.error e =>
        { resp := ⟨500, e⟩, embedCalls := fr.embedCalls,
          searchCalls := fr.searchCalls, completionCalls := 0 }
      | Except.ok relevant_context =>
        if relevant_context = [] then
          { resp := ⟨404, "No relevant context found for the question."⟩,
            embedCalls := fr.embedCalls, searchCalls := fr.searchCalls,
            completionCalls := 0 }
        else if w.completionFails then
          { resp := ⟨500, "Error querying OpenAI API"⟩,
            embedCalls := fr.embedCalls, searchCalls := fr.searchCalls,
            completionCalls := 1 }
        else
          { resp := ⟨200, w.completion relevant_context question⟩,
            embedCalls := fr.embedCalls, searchCalls := fr.searchCalls,
            completionCalls := 1 }

/-! ### Upload/delete lambda (`upload_files_and_delete_files/src/main.py`) -/

/-- One entry of the request's `files` array.  `file_content` holds the
base64-decoded bytes (the external `base64.b64decode` is modelled as giving
the decoded content directly). -/
structure UploadFile where
  file_name : String
  file_content : List Nat
deriving DecidableEq

/-- The upload request body; `none` models a missing key. -/
structure UploadRequest where
  bucket_name : Option String
  user_id : Option String
  context_id : Option String
  name : Option String
  action : Option String
  files : Option (List UploadFile)
deriving DecidableEq

/-- One `put_object` call issued by the upload loop. -/
structure PutCall where
  bucket : String
  key : String
  body : List Nat
deriving DecidableEq

/-- One bulk `delete_objects` call issued by the delete branch. -/
structure DeleteCall where
  bucket : String
  keys : List String
deriving DecidableEq

/-- External world of the upload lambda: the generated uuid used for the
default `name`, and the S3 listing by key prefix used by the delete branch. -/
structure UploadWorld where
  uuid : String
  s3keys : String → List String

/-- Observable outcome of one upload/delete call. -/
structure UploadOutcome where
  resp : Resp
  puts : List PutCall
  deletes : List DeleteCall
deriving DecidableEq

/-- `MAX_TOTAL_SIZE_BYTES = 15 * 1024 * 1024`. -/
def MAX_TOTAL_SIZE_BYTES : Nat := 15 * 1024 * 1024

/-- `delete_collection(bucket_name, user_id, context_id)`: list everything
under `{user_id}/{context_id}/` (the `name` level is ignored); delete all of
it, or 404 when the listing is empty. -/
def delete_collection (w : UploadWorld) (bucket_name user_id context_id : String) :
    UploadOutcome :=
  let pfx := user_id ++ "/" ++ context_id ++ "/"
  let keys := w.s3keys pfx
  if keys = [] then
    { resp := ⟨404, "No files found in the specified context"⟩, puts := [],
      deletes := [] }
  else
    { resp := ⟨200, "All files in the context deleted successfully"⟩,
      puts := [], deletes := [⟨bucket_name, keys⟩] }

/-- `lambda_handler` of `upload_files_and_delete_files/src/main.py`.  Fields
are read with `.get`, `name` defaulting to `default-{uuid}`; `not all([...])`
rejects `None` or empty-string fields with a 400 before anything else.  The
delete action branches off next; otherwise the `files` array is required, its
total decoded size is summed before any write, and each file is put under
`{user_id}/{context_id}/{name}/{file_name}`. -/
def lambda_handler_upload (w : UploadWorld) (req : UploadRequest) :
    UploadOutcome :=
  match req.bucket_name, req.user_id, req.context_id with
  | some bucket_name, some user_id, some context_id =>
    let name := req.name.getD ("default-" ++ w.uuid)
    if bucket_name.isEmpty || user_id.isEmpty || context_id.isEmpty
        || name.isEmpty then
      { resp := ⟨400, "Bucket name, user ID, context ID, and name are required."⟩,
        puts := [], deletes := [] }
    else
      let action := req.action.getD "upload"
      if action = "delete" then delete_collection w bucket_name user_id context_id
      else
        match req.files with
        | none =>
          { resp := ⟨400, "No files found to upload."⟩, puts := [],
            deletes := [] }
        | some files =>
          let total_size := (files.map (fun f => f.file_content.length)).sum
          if total_size > MAX_TOTAL_SIZE_BYTES then
            { resp := ⟨400, "Total file content exceeds 15 MB limit."⟩,
              puts := [], deletes := [] }
          else
            { resp := ⟨200, "Files uploaded successfully"⟩,
              puts := files.map (fun f =>
                { bucket := bucket_name,
                  key := user_id ++ "/" ++ context_id ++ "/" ++ name ++ "/"
                    ++ f.file_name,
                  body := f.file_content }),
              deletes := [] }
  | _, _, _ =>
    { resp := ⟨400, "Bucket name, user ID, context ID, and name are required."⟩,
      puts := [], deletes := [] }

/-! ### Lemmas about whitespace splitting and joining -/

theorem splitWSAux_nil_cons (a : Char) (acc : List Char) :
    splitWSAux [] (a :: acc) = [(a :: acc).reverse] := rfl

theorem splitWSAux_cons (c : Char) (s : Text) (acc : List Char) :
    splitWSAux (c :: s) acc =
      if isWS c then
        (match acc with
          | [] => splitWSAux s []
          | _ => acc.reverse :: splitWSAux s [])
      else splitWSAux s (c :: acc) := by
  cases acc <;> rfl

theorem splitWSAux_ws_cons (c : Char) (hc : isWS c = true) (s : Text)
    (a : Char) (acc : List Char) :
    splitWSAux (c :: s) (a :: acc) = (a :: acc).reverse :: splitWSAux s [] := by
  rw [splitWSAux_cons, hc]
  simp

theorem splitWSAux_ws_nil (c : Char) (hc : isWS c = true) (s : Text) :
    splitWSAux (c :: s) [] = splitWSAux s [] := by
  rw [splitWSAux_cons, hc]
  simp

theorem splitWSAux_not_ws (c : Char) (hc : isWS c = false) (s : Text)
    (acc : List Char) :
    splitWSAux (c :: s) acc = splitWSAux s (c :: acc) := by
  rw [splitWSAux_cons, hc]
  simp

theorem splitWSAux_append_token (t : Text) (ht : ∀ c ∈ t, isWS c = false)
    (s : Text) (acc : List Char) :
    splitWSAux (t ++ s) acc = splitWSAux s (t.reverse ++ acc) := by
  induction t generalizing acc with
  | nil => simp
  | cons c t ih =>
    have hc : isWS c = false := ht c (List.mem_cons_self ..)
    rw [List.cons_append, splitWSAux_not_ws c hc]
    rw [ih (fun x hx => ht x (List.mem_cons_of_mem _ hx))]
    simp

/-- Tokens produced by the splitter are nonempty and whitespace-free,
provided the accumulator holds only non-whitespace characters. -/
theorem splitWSAux_good (s : Text) (acc : List Char)
    (hacc : ∀ c ∈ acc, isWS c = false) :
    ∀ tok ∈ splitWSAux s acc, tok ≠ [] ∧ ∀ c ∈ tok, isWS c = false := by
  induction s generalizing acc with
  | nil =>
    cases acc with
    | nil => simp [splitWSAux]
    | cons a as =>
      rw [splitWSAux_nil_cons]
      intro tok htok
      rw [List.mem_singleton] at htok
      subst htok
      refine ⟨by simp, ?_⟩
      intro c hc
      exact hacc c (List.mem_reverse.mp hc)
  | cons c rest ih =>
    by_cases hc : isWS c = true
    · cases acc with
      | nil =>
        rw [splitWSAux_ws_nil c hc]
        exact ih [] (by simp)
      | cons a as =>
        rw [splitWSAux_ws_cons c hc]
        intro tok htok
        rcases List.mem_cons.mp htok with h | h
        · subst h
          refine ⟨by simp, ?_⟩
          intro x hx
          exact hacc x (List.mem_reverse.mp hx)
        · exact ih [] (by simp) tok h
    · simp only [Bool.not_eq_true] at hc
      rw [splitWSAux_not_ws c hc]
      apply ih
      intro x hx
      rcases List.mem_cons.mp hx with h | h
      · subst h; exact hc
      · exact hacc x h

/-- Tokens of `splitWS` are nonempty and whitespace-free. -/
theorem splitWS_good (s : Text) :
    ∀ tok ∈ splitWS s, tok ≠ [] ∧ ∀ c ∈ tok, isWS c = false :=
  splitWSAux_good s [] (by simp)

/-- Splitting a single-space join of nonempty whitespace-free tokens
recovers exactly those tokens. -/
theorem splitWS_joinTokens (ts : List Text)
    (h : ∀ t ∈ ts, t ≠ [] ∧ ∀ c ∈ t, isWS c = false) :
    splitWS (joinTokens ts) = ts := by
  induction ts with
  | nil => rfl
  | cons t ts ih =>
    obtain ⟨hne, hws⟩ := h t (List.mem_cons_self ..)
    cases ts with
    | nil =>
      show splitWSAux t [] = [t]
      have h0 := splitWSAux_append_token t hws [] []
      rw [List.append_nil] at h0
      rw [h0, List.append_nil]
      cases ht : t.reverse with
      | nil => exact absurd (List.reverse_eq_nil_iff.mp ht) hne
      | cons a as =>
        rw [splitWSAux_nil_cons, ← ht, List.reverse_reverse]
    | cons u us =>
      show splitWSAux (t ++ ' ' :: joinTokens (u :: us)) [] = _
      rw [splitWSAux_append_token t hws, List.append_nil]
      cases ht : t.reverse with
      | nil => exact absurd (List.reverse_eq_nil_iff.mp ht) hne
      | cons a as =>
        rw [splitWSAux_ws_cons ' ' (by decide), ← ht, List.reverse_reverse]
        have hrec := ih (fun x hx => h x (List.mem_cons_of_mem _ hx))
        show t :: splitWS (joinTokens (u :: us)) = _
        rw [hrec]

/-- The join of a nonempty list of nonempty tokens is nonempty. -/
theorem joinTokens_ne_nil (ts : List Text) (hne : ts ≠ [])
    (h : ∀ t ∈ ts, t ≠ []) : joinTokens ts ≠ [] := by
  cases ts with
  | nil => contradiction
  | cons t ts =>
    cases ts with
    | nil => exact h t (List.mem_cons_self ..)
    | cons u us =>
      show t ++ ' ' :: joinTokens (u :: us) ≠ []
      simp

/-- Truncating a nonempty text to a positive token budget yields a nonempty
text. -/
theorem truncate_context_ne_nil (text : Text) (hne : text ≠ []) (m : Nat)
    (hm : 0 < m) : truncate_context text m ≠ [] := by
  unfold truncate_context
  by_cases h : (splitWS text).length > m
  · simp only [h, if_true]
    apply joinTokens_ne_nil
    · have hlen : ((splitWS text).take m).length = m := by
        rw [List.length_take]
        omega
      intro hcon
      rw [hcon] at hlen
      simp at hlen
      omega
    · intro t ht
      exact (splitWS_good text t (List.mem_of_mem_take ht)).1
  · simpa [h]

/-- C3: for every search-result text, the context returned by
`truncate_context` at the 7500-token budget whitespace-splits to exactly the
first 7500 whitespace-delimited tokens of the input (so a text of more than
7500 tokens is cut to exactly the first 7500), and a text of at most 7500
tokens is returned entirely unchanged. -/
theorem truncate_context_spec (text : Text) :
    splitWS (truncate_context text MAX_CONTEXT_TOKENS)
        = (splitWS text).take MAX_CONTEXT_TOKENS
    ∧ ((splitWS text).length ≤ MAX_CONTEXT_TOKENS →
        truncate_context text MAX_CONTEXT_TOKENS = text) := by
  constructor
  · unfold truncate_context
    by_cases h : (splitWS text).length > MAX_CONTEXT_TOKENS
    · simp only [h, if_true]
      apply splitWS_joinTokens
      intro t ht
      exact splitWS_good text t (List.mem_of_mem_take ht)
    · simp only [h, if_false]
      rw [List.take_of_length_le (by omega)]
  · intro h
    unfold truncate_context
    simp only [Nat.not_lt.mpr h, if_false]

/-- C3 witness: at the one-character text `"a"` both conjuncts hold, the
second with its token-count hypothesis discharged concretely. -/
theorem truncate_context_spec_witness :
    (splitWS (truncate_context ['a'] MAX_CONTEXT_TOKENS)
        = (splitWS ['a']).take MAX_CONTEXT_TOKENS)
    ∧ truncate_context ['a'] MAX_CONTEXT_TOKENS = ['a'] :=
  ⟨(truncate_context_spec ['a']).1,
   (truncate_context_spec ['a']).2 (by decide)⟩

/-! ### Lemmas about the chunker -/

theorem chunk_text_unfold (text : Text) :
    chunk_text text 1000 100 =
      if text.length ≤ 1000 then [text]
      else text.take 1000 :: chunk_text (text.drop 900) 1000 100 := by
  rw [chunk_text]
  by_cases h : text.length ≤ 1000 <;> simp [h]

/-- Window `i` of the 1000/100 chunking is the 1000-character slice starting
at offset `900 * i`. -/
theorem chunk_text_get (n : Nat) :
    ∀ (text : Text), text.length ≤ n →
      ∀ (i : Nat), i < (chunk_text text 1000 100).length →
        (chunk_text text 1000 100)[i]?
          = some ((text.drop (900 * i)).take 1000) := by
  induction n with
  | zero =>
    intro text hlen i hi
    have htext : text = [] := List.eq_nil_of_length_eq_zero (by omega)
    subst htext
    rw [chunk_text_unfold] at hi ⊢
    simp at hi
    subst hi
    simp
  | succ n ih =>
    intro text hlen i hi
    by_cases h : text.length ≤ 1000
    · rw [chunk_text_unfold] at hi ⊢
      simp only [h, if_true] at hi ⊢
      simp only [List.length_singleton] at hi
      interval_cases i
      simp [List.take_of_length_le h]
    · rw [chunk_text_unfold] at hi ⊢
      simp only [h, if_false] at hi ⊢
      cases i with
      | zero => simp
      | succ j =>
        simp only [List.length_cons] at hi
        rw [List.getElem?_cons_succ]
        have hdroplen : (text.drop 900).length ≤ n := by
          rw [List.length_drop]
          omega
        have hj : j < (chunk_text (text.drop 900) 1000 100).length := by omega
        rw [ih (text.drop 900) hdroplen j hj, List.drop_drop]
        have harith : 900 + 900 * j = 900 * (j + 1) := by ring
        rw [harith]

/-- Every window except possibly the last spans a full 1000 characters of the
input. -/
theorem chunk_text_full (n : Nat) :
    ∀ (text : Text), text.length ≤ n →
      ∀ (i : Nat), i + 1 < (chunk_text text 1000 100).length →
        1000 + 900 * i ≤ text.length := by
  induction n with
  | zero =>
    intro text hlen i hi
    have htext : text = [] := List.eq_nil_of_length_eq_zero (by omega)
    subst htext
    rw [chunk_text_unfold] at hi
    simp at hi
  | succ n ih =>
    intro text hlen i hi
    by_cases h : text.length ≤ 1000
    · rw [chunk_text_unfold] at hi
      simp only [h, if_true, List.length_singleton] at hi
      omega
    · rw [chunk_text_unfold] at hi
      simp only [h, if_false, List.length_cons] at hi
      cases i with
      | zero => omega
      | succ j =>
        have hdroplen : (text.drop 900).length ≤ n := by
          rw [List.length_drop]
          omega
        have := ih (text.drop 900) hdroplen j (by omega)
        rw [List.length_drop] at this
        omega

theorem chunk_text_getElem (text : Text) (i : Nat)
    (hi : i < (chunk_text text 1000 100).length) :
    (chunk_text text 1000 100).get ⟨i, hi⟩ = (text.drop (900 * i)).take 1000 := by
  have h := chunk_text_get text.length text (Nat.le_refl _) i hi
  rw [List.getElem?_eq_getElem hi] at h
  rw [List.get_eq_getElem]
  exact Option.some.inj h

/-- C4: every window produced by the 1000/100 chunking is bounded by the
chunk size, and consecutive windows share exactly 100 characters — every
non-final window spans exactly 1000 characters and its last 100 characters
are the next window's first 100; only the final window may be shorter. -/
theorem chunk_text_spec (text : Text) :
    (∀ c ∈ chunk_text text 1000 100, c.length ≤ 1000)
    ∧ List.Chain' (fun a b => a.length = 1000 ∧ a.drop (1000 - 100) = b.take 100)
        (chunk_text text 1000 100) := by
  constructor
  · intro c hc
    obtain ⟨⟨i, hi⟩, rfl⟩ := List.mem_iff_get.mp hc
    rw [chunk_text_getElem]
    rw [List.length_take]
    omega
  · rw [List.chain'_iff_get]
    intro i h
    have hi : i < (chunk_text text 1000 100).length := by omega
    have hi1 : i + 1 < (chunk_text text 1000 100).length := by omega
    rw [chunk_text_getElem text i hi, chunk_text_getElem text (i + 1) hi1]
    have hfull := chunk_text_full text.length text (Nat.le_refl _) i (by omega)
    constructor
    · rw [List.length_take, List.length_drop]
      omega
    · rw [List.drop_take, List.take_take, List.drop_drop]
      have h1 : (1000 : Nat) - 900 = 100 := by norm_num
      have h2 : min 100 1000 = 100 := by norm_num
      have h3 : 900 * i + 900 = 900 * (i + 1) := by ring
      rw [h1, h2, h3]

/-- C4 witness: the conjunction instantiated at a concrete two-character
text, with the membership hypothesis of the first conjunct discharged at the
concrete window it produces. -/
theorem chunk_text_spec_witness :
    (['a', 'b'] : Text).length ≤ 1000
    ∧ List.Chain' (fun a b => a.length = 1000 ∧ a.drop (1000 - 100) = b.take 100)
        (chunk_text ['a', 'b'] 1000 100) :=
  ⟨(chunk_text_spec ['a', 'b']).1 ['a', 'b']
      (by rw [chunk_text_unfold]; simp),
   (chunk_text_spec ['a', 'b']).2⟩

/-! ### Lemmas about the ingestion pipeline -/

theorem qdrantPayloads_indices {V : Type} (md : Metadata) (es : List V)
    (cs : List Text) (h : es.length = cs.length) :
    (qdrantPayloads md es cs).map (fun p => p.chunk_index) = List.range cs.length
    ∧ (qdrantPayloads md es cs).map (fun p => p.text) = cs := by
  unfold qdrantPayloads
  constructor
  · rw [List.map_map]
    have hmap : ((fun p : Payload => p.chunk_index) ∘ (fun p : Nat × (V × Text) =>
        ({ context_id := md.context_id, user_id := md.user_id,
           file_count := md.file_count, chunk_index := p.1,
           text := p.2.2 } : Payload))) = Prod.fst := rfl
    rw [hmap, List.enum_map_fst, List.length_zip, h, Nat.min_self]
  · rw [List.map_map]
    have hmap : ((fun p : Payload => p.text) ∘ (fun p : Nat × (V × Text) =>
        ({ context_id := md.context_id, user_id := md.user_id,
           file_count := md.file_count, chunk_index := p.1,
           text := p.2.2 } : Payload))) = (Prod.snd ∘ Prod.snd) := rfl
    rw [hmap, ← List.map_map, List.enum_map_snd]
    exact List.map_snd_zip es cs (by omega)

/-- The per-file processing step of the handler, named for reuse in proofs. -/
theorem processed_eq_fileChunks {V : Type} (w : IngestWorld V) (files : List S3File) :
    (files.map (fun f =>
      match f.text with
      | some t =>
        if t = [] then (([] : List V), ([] : List Text))
        else generate_embeddings w t
      | none => ([], []))).map Prod.snd = files.map (fileChunks w)
    ∧ (files.map (fun f =>
      match f.text with
      | some t =>
        if t = [] then (([] : List V), ([] : List Text))
        else generate_embeddings w t
      | none => ([], []))).map Prod.fst
        = files.map (fun f => (fileChunks w f).map w.embed) := by
  constructor
  · rw [List.map_map]
    apply List.map_congr_left
    intro f _
    cases hf : f.text with
    | none => simp [fileChunks, hf]
    | some t =>
      by_cases ht : t = [] <;>
        simp [fileChunks, hf, ht, generate_embeddings]
  · rw [List.map_map]
    apply List.map_congr_left
    intro f _
    cases hf : f.text with
    | none => simp [fileChunks, hf]
    | some t =>
      by_cases ht : t = [] <;>
        simp [fileChunks, hf, ht, generate_embeddings]

/-- The payload built from the accumulated embeddings and chunks carries the
contiguous index range and the file-ordered chunk texts. -/
theorem ingest_payload_lemma {V : Type} (w : IngestWorld V)
    (files : List S3File) (md : Metadata) :
    (qdrantPayloads md
        ((files.map (fun f =>
          match f.text with
          | some t =>
            if t = [] then (([] : List V), ([] : List Text))
            else generate_embeddings w t
          | none => ([], []))).map Prod.fst).flatten
        ((files.map (fun f =>
          match f.text with
          | some t =>
            if t = [] then (([] : List V), ([] : List Text))
            else generate_embeddings w t
          | none => ([], []))).map Prod.snd).flatten).map (fun p => p.chunk_index)
      = List.range ((files.map (fun f => (fileChunks w f).length)).sum)
    ∧ (qdrantPayloads md
        ((files.map (fun f =>
          match f.text with
          | some t =>
            if t = [] then (([] : List V), ([] : List Text))
            else generate_embeddings w t
          | none => ([], []))).map Prod.fst).flatten
        ((files.map (fun f =>
          match f.text with
          | some t =>
            if t = [] then (([] : List V), ([] : List Text))
            else generate_embeddings w t
          | none => ([], []))).map Prod.snd).flatten).map (fun p => p.text)
      = (files.map (fileChunks w)).flatten := by
  obtain ⟨hsnd, hfst⟩ := processed_eq_fileChunks w files
  rw [hsnd, hfst]
  have hembed : (files.map (fun f => (fileChunks w f).map w.embed)).flatten
      = ((files.map (fileChunks w)).flatten).map w.embed := by
    rw [List.map_flatten, List.map_map]
    rfl
  rw [hembed]
  have hlen : (((files.map (fileChunks w)).flatten).map w.embed).length
      = ((files.map (fileChunks w)).flatten).length := List.length_map _ _
  obtain ⟨hidx, htext⟩ :=
    qdrantPayloads_indices md (((files.map (fileChunks w)).flatten).map w.embed)
      ((files.map (fileChunks w)).flatten) hlen
  refine ⟨?_, htext⟩
  rw [hidx, List.length_flatten, List.map_map]
  rfl

/-- C2: for every ingestion batch, the `chunk_index` values in the payload of
every bulk write issued by the handler are exactly the contiguous range
`[0, sum of per-file chunk counts)`, and the payload texts are the chunks in
file-listing order, each file's chunks in order — the index is not reset per
file. -/
theorem ingest_chunk_index_contiguous {V : Type} (w : IngestWorld V)
    (req : IngestRequest) (b u c n : String)
    (hb : req.bucket_name = some b) (hu : req.user_id = some u)
    (hc : req.context_id = some c) (hn : req.name = some n) :
    ∀ call ∈ (lambda_handler_ingest w req).storeCalls,
      call.payload.map (fun p => p.chunk_index)
        = List.range
            (((w.s3list (u ++ "/" ++ c ++ "/" ++ n)).map
              (fun f => (fileChunks w f).length)).sum)
      ∧ call.payload.map (fun p => p.text)
        = ((w.s3list (u ++ "/" ++ c ++ "/" ++ n)).map (fileChunks w)).flatten := by
  unfold lambda_handler_ingest
  rw [hb, hu, hc, hn]
  dsimp only
  by_cases hf : w.s3list (u ++ "/" ++ c ++ "/" ++ n) = []
  · rw [if_pos hf]
    intro call hcall
    simp at hcall
  · rw [if_neg hf]
    rcases hres : create_vectorstore w.qdrant
        (if (w.s3list (u ++ "/" ++ c ++ "/" ++ n)).length > 1
         then "coll_" ++ u ++ "_" ++ c else "one_" ++ u ++ "_" ++ c)
      with ⟨res, att⟩
    cases res with
    | error e =>
      intro call hcall
      simp at hcall
    | ok vs =>
      dsimp only
      by_cases hup : w.uploadFails
      · rw [if_pos hup]
        intro call hcall
        rw [List.mem_singleton] at hcall
        subst hcall
        exact ingest_payload_lemma w (w.s3list (u ++ "/" ++ c ++ "/" ++ n)) _
      · rw [if_neg hup]
        intro call hcall
        rw [List.mem_singleton] at hcall
        subst hcall
        exact ingest_payload_lemma w (w.s3list (u ++ "/" ++ c ++ "/" ++ n)) _

/-- A Qdrant world where nothing fails and no collection exists yet. -/
def calmQdrant : QdrantWorld :=
  { collections := [], listingFails := false, createFails := fun _ => false }

/-- Ingestion world over `Unit` vectors whose listing returns one file. -/
def oneFileWorld : IngestWorld Unit :=
  { s3list := fun _ => [{ key := "u/c/n/a.pdf", text := some ['a'] }],
    qdrant := calmQdrant, chunker := fun t => [t], embed := fun _ => (),
    uploadFails := false }

/-- Ingestion world over `Unit` vectors whose listing returns two files. -/
def twoFileWorld : IngestWorld Unit :=
  { s3list := fun _ =>
      [{ key := "u/c/n/a.pdf", text := some ['a'] },
       { key := "u/c/n/b.pdf", text := some ['b', 'c'] }],
    qdrant := calmQdrant, chunker := fun t => [t], embed := fun _ => (),
    uploadFails := false }

/-- Ingestion world over `Unit` vectors whose listing returns nothing. -/
def emptyListingWorld : IngestWorld Unit :=
  { s3list := fun _ => [], qdrant := calmQdrant, chunker := fun t => [t],
    embed := fun _ => (), uploadFails := false }

/-- A complete ingestion request. -/
def sampleIngestReq : IngestRequest :=
  { bucket_name := some "bkt", user_id := some "u", context_id := some "c",
    name := some "n" }

/-- The bulk write the two-file world produces. -/
def twoFileCall : StoreCall Unit :=
  { collection_name := "coll_u_c", vectors := [(), ()],
    payload :=
      [{ context_id := "c", user_id := "u", file_count := 2, chunk_index := 0,
         text := ['a'] },
       { context_id := "c", user_id := "u", file_count := 2, chunk_index := 1,
         text := ['b', 'c'] }] }

/-- C2 witness: in a concrete two-file batch contributing one chunk each, the
single bulk write carries chunk_index values `[0, 1]` and the chunks in
file order. -/
theorem ingest_chunk_index_contiguous_witness :
    twoFileCall ∈ (lambda_handler_ingest twoFileWorld sampleIngestReq).storeCalls
    ∧ twoFileCall.payload.map (fun p => p.chunk_index) = [0, 1]
    ∧ twoFileCall.payload.map (fun p => p.text) = [['a'], ['b', 'c']] := by
  have h := ingest_chunk_index_contiguous twoFileWorld sampleIngestReq
    "bkt" "u" "c" "n" rfl rfl rfl rfl twoFileCall (by decide)
  exact ⟨by decide, h.1.trans (by decide), h.2.trans (by decide)⟩

/-- C1: for every ingestion call whose listing returns exactly one file for
`(user_id = u, context_id = c)`, the derived collection identity handed to
the vector store is `one_u_c`; with two or more files it is `coll_u_c`. -/
theorem ingest_collection_identity {V : Type} (w : IngestWorld V)
    (req : IngestRequest) (b u c n : String)
    (hb : req.bucket_name = some b) (hu : req.user_id = some u)
    (hc : req.context_id = some c) (hn : req.name = some n) :
    ((w.s3list (u ++ "/" ++ c ++ "/" ++ n)).length = 1 →
      (lambda_handler_ingest w req).collectionUsed
        = some ("one_" ++ u ++ "_" ++ c))
    ∧ (2 ≤ (w.s3list (u ++ "/" ++ c ++ "/" ++ n)).length →
      (lambda_handler_ingest w req).collectionUsed
        = some ("coll_" ++ u ++ "_" ++ c)) := by
  unfold lambda_handler_ingest
  rw [hb, hu, hc, hn]
  dsimp only
  by_cases hf : w.s3list (u ++ "/" ++ c ++ "/" ++ n) = []
  · rw [if_pos hf]
    constructor
    · intro h1
      rw [hf] at h1
      simp at h1
    · intro h2
      rw [hf] at h2
      simp at h2
  · rw [if_neg hf]
    rcases create_vectorstore w.qdrant
        (if (w.s3list (u ++ "/" ++ c ++ "/" ++ n)).length > 1
         then "coll_" ++ u ++ "_" ++ c else "one_" ++ u ++ "_" ++ c)
      with ⟨res, att⟩
    constructor
    · intro h1
      have hlt : ¬ (w.s3list (u ++ "/" ++ c ++ "/" ++ n)).length > 1 := by omega
      cases res with
      | error e => simp [hlt]
      | ok vs =>
        dsimp only
        by_cases hup : w.uploadFails <;> simp [hup, hlt]
    · intro h2
      have hgt : (w.s3list (u ++ "/" ++ c ++ "/" ++ n)).length > 1 := by omega
      cases res with
      | error e => simp [hgt]
      | ok vs =>
        dsimp only
        by_cases hup : w.uploadFails <;> simp [hup, hgt]

/-- C1 witness: the one-file world routes to `one_u_c`, the two-file world to
`coll_u_c`. -/
theorem ingest_collection_identity_witness :
    (lambda_handler_ingest oneFileWorld sampleIngestReq).collectionUsed
        = some "one_u_c"
    ∧ (lambda_handler_ingest twoFileWorld sampleIngestReq).collectionUsed
        = some "coll_u_c" :=
  ⟨((ingest_collection_identity oneFileWorld sampleIngestReq
      "bkt" "u" "c" "n" rfl rfl rfl rfl).1 (by decide)).trans (by decide),
   ((ingest_collection_identity twoFileWorld sampleIngestReq
      "bkt" "u" "c" "n" rfl rfl rfl rfl).2 (by decide)).trans (by decide)⟩

/-- C7: an ingestion call whose prefix listing returns zero objects answers
404 and performs no side effects — no collection identity is derived, no
creation is attempted and no write is issued. -/
theorem ingest_empty_listing_no_side_effects {V : Type} (w : IngestWorld V)
    (req : IngestRequest) (b u c n : String)
    (hb : req.bucket_name = some b) (hu : req.user_id = some u)
    (hc : req.context_id = some c) (hn : req.name = some n)
    (hempty : w.s3list (u ++ "/" ++ c ++ "/" ++ n) = []) :
    (lambda_handler_ingest w req).resp
        = ⟨404, "No files found for the specified prefix"⟩
    ∧ (lambda_handler_ingest w req).collectionUsed = none
    ∧ (lambda_handler_ingest w req).createAttempts = []
    ∧ (lambda_handler_ingest w req).storeCalls = [] := by
  unfold lambda_handler_ingest
  rw [hb, hu, hc, hn]
  dsimp only
  rw [if_pos hempty]
  exact ⟨rfl, rfl, rfl, rfl⟩

/-- C7 witness: the empty-listing world at a complete request. -/
theorem ingest_empty_listing_no_side_effects_witness :
    (lambda_handler_ingest emptyListingWorld sampleIngestReq).resp
        = ⟨404, "No files found for the specified prefix"⟩
    ∧ (lambda_handler_ingest emptyListingWorld sampleIngestReq).collectionUsed
        = none
    ∧ (lambda_handler_ingest emptyListingWorld sampleIngestReq).createAttempts
        = []
    ∧ (lambda_handler_ingest emptyListingWorld sampleIngestReq).storeCalls
        = [] :=
  ingest_empty_listing_no_side_effects emptyListingWorld sampleIngestReq
    "bkt" "u" "c" "n" rfl rfl rfl rfl rfl

/-- A Qdrant world in which the collection exists but the listing call fails,
so the safe existence check answers `false`, and creation on the existing
name fails. -/
def raceQdrant : QdrantWorld :=
  { collections := ["one_u_c"], listingFails := true,
    createFails := fun _ => true }

/-- C6 counterexample: with `one_u_c` present in the collection listing but
the listing call failing, creation is attempted and its failure is re-raised
— the claim that a create-on-existing-name failure is benign and the handle
still returned is false on this code. -/
theorem create_vectorstore_failure_propagates :
    "one_u_c" ∈ raceQdrant.collections
    ∧ (create_vectorstore raceQdrant "one_u_c").1
        = Except.error "Failed to create collection" :=
  ⟨by decide, rfl⟩

/-- C6 (amended): creation is attempted exactly when `collection_exists_safe`
answers `false` (absent from a successful listing, or the listing call
failed); when no creation is needed, or creation succeeds, the handle is
returned; but a failure of the creation attempt is re-raised, so no handle is
returned — the failure is fatal, not benign. -/
theorem create_vectorstore_spec (w : QdrantWorld) (name : String) :
    ((create_vectorstore w name).2 ≠ [] →
      collection_exists_safe w name = false)
    ∧ (collection_exists_safe w name = true →
      create_vectorstore w name = (Except.ok ⟨name⟩, []))
    ∧ (collection_exists_safe w name = false → w.createFails name = false →
      create_vectorstore w name = (Except.ok ⟨name⟩, [name]))
    ∧ (collection_exists_safe w name = false → w.createFails name = true →
      create_vectorstore w name
        = (Except.error "Failed to create collection", [name])) := by
  unfold create_vectorstore
  by_cases he : collection_exists_safe w name = false
  · rw [if_pos he]
    by_cases hc : w.createFails name
    · rw [if_pos hc]
      refine ⟨fun _ => he, fun h1 => ?_, fun _ h2 => ?_, fun _ _ => rfl⟩
      · rw [he] at h1
        cases h1
      · rw [hc] at h2
        cases h2
    · rw [if_neg hc]
      simp only [Bool.not_eq_true] at hc
      refine ⟨fun _ => he, fun h1 => ?_, fun _ _ => rfl, fun _ h2 => ?_⟩
      · rw [he] at h1
        cases h1
      · rw [hc] at h2
        cases h2
  · rw [if_neg he]
    simp only [Bool.not_eq_false] at he
    refine ⟨fun h0 => absurd rfl h0, fun _ => rfl, fun h1 => ?_, fun h1 => ?_⟩
    · rw [he] at h1
      cases h1
    · rw [he] at h1
      cases h1

/-- C6 witness: in the racing world the existence check answers `false`,
creation fails, and the error with the recorded attempt is what the function
returns. -/
theorem create_vectorstore_spec_witness :
    collection_exists_safe raceQdrant "one_u_c" = false
    ∧ raceQdrant.createFails "one_u_c" = true
    ∧ create_vectorstore raceQdrant "one_u_c"
        = (Except.error "Failed to create collection", ["one_u_c"]) :=
  ⟨rfl, rfl, (create_vectorstore_spec raceQdrant "one_u_c").2.2.2 rfl rfl⟩

/-! ### Missing-field behaviour of the three handlers -/

theorem ingest_missing_field {V : Type} (w : IngestWorld V)
    (req : IngestRequest)
    (h : req.bucket_name = none ∨ req.user_id = none ∨ req.context_id = none
        ∨ req.name = none) :
    lambda_handler_ingest w req =
      { resp := ⟨500, "An error occurred"⟩, listCalls := 0,
        collectionUsed := none, createAttempts := [], storeCalls := [] } := by
  obtain ⟨f1, f2, f3, f4⟩ := req
  simp only at h
  unfold lambda_handler_ingest
  rcases f1 with _ | b
  · rfl
  rcases f2 with _ | u
  · rfl
  rcases f3 with _ | c
  · rfl
  rcases f4 with _ | n
  · rfl
  simp at h

theorem query_missing_field {V : Type} (w : QueryWorld V) (req : QueryRequest)
    (h : req.collection_name = none ∨ req.question = none) :
    (lambda_handler_query w req).resp.statusCode = 500
    ∧ (lambda_handler_query w req).embedCalls = 0
    ∧ (lambda_handler_query w req).searchCalls = 0
    ∧ (lambda_handler_query w req).completionCalls = 0 := by
  obtain ⟨f1, f2⟩ := req
  simp only at h
  unfold lambda_handler_query
  rcases f1 with _ | cn
  · exact ⟨rfl, rfl, rfl, rfl⟩
  rcases f2 with _ | q
  · exact ⟨rfl, rfl, rfl, rfl⟩
  simp at h

theorem upload_missing_field (w : UploadWorld) (req : UploadRequest)
    (h : req.bucket_name = none ∨ req.user_id = none ∨ req.context_id = none) :
    lambda_handler_upload w req =
      { resp := ⟨400, "Bucket name, user ID, context ID, and name are required."⟩,
        puts := [], deletes := [] } := by
  obtain ⟨f1, f2, f3, f4, f5, f6⟩ := req
  simp only at h
  unfold lambda_handler_upload
  rcases f1 with _ | b
  · rfl
  rcases f2 with _ | u
  · rfl
  rcases f3 with _ | c
  · rfl
  simp at h

/-- C5 counterexample: an ingestion request lacking `bucket_name` is answered
with status 500 (the `KeyError` falls into the blanket exception handler),
not the claimed 400. -/
theorem ingest_missing_field_returns_500 :
    (lambda_handler_ingest emptyListingWorld
        { bucket_name := none, user_id := some "u", context_id := some "c",
          name := some "n" }).resp.statusCode = 500
    ∧ (lambda_handler_ingest emptyListingWorld
        { bucket_name := none, user_id := some "u", context_id := some "c",
          name := some "n" }).resp.statusCode ≠ 400 :=
  ⟨rfl, by decide⟩

/-- C5 (amended): a request lacking a required field short-circuits before
any external call in all three handlers, but only the upload handler answers
400 with a descriptive message; the ingestion and query handlers let the
`KeyError` fall into their blanket exception handler and answer 500. -/
theorem missing_required_fields_behavior {V W : Type} (wi : IngestWorld V)
    (wq : QueryWorld W) (wu : UploadWorld) (ri : IngestRequest)
    (rq : QueryRequest) (ru : UploadRequest) :
    (ri.bucket_name = none ∨ ri.user_id = none ∨ ri.context_id = none
        ∨ ri.name = none →
      (lambda_handler_ingest wi ri).resp = ⟨500, "An error occurred"⟩
      ∧ (lambda_handler_ingest wi ri).listCalls = 0
      ∧ (lambda_handler_ingest wi ri).createAttempts = []
      ∧ (lambda_handler_ingest wi ri).storeCalls = [])
    ∧ (rq.collection_name = none ∨ rq.question = none →
      (lambda_handler_query wq rq).resp.statusCode = 500
      ∧ (lambda_handler_query wq rq).embedCalls = 0
      ∧ (lambda_handler_query wq rq).searchCalls = 0
      ∧ (lambda_handler_query wq rq).completionCalls = 0)
    ∧ (ru.bucket_name = none ∨ ru.user_id = none ∨ ru.context_id = none →
      (lambda_handler_upload wu ru).resp
          = ⟨400, "Bucket name, user ID, context ID, and name are required."⟩
      ∧ (lambda_handler_upload wu ru).puts = []
      ∧ (lambda_handler_upload wu ru).deletes = []) := by
  refine ⟨fun h => ?_, fun h => query_missing_field wq rq h, fun h => ?_⟩
  · rw [ingest_missing_field wi ri h]
    exact ⟨rfl, rfl, rfl, rfl⟩
  · rw [upload_missing_field wu ru h]
    exact ⟨rfl, rfl, rfl⟩

/-- A query world whose search returns no results and in which no external
call fails. -/
def calmQueryWorld : QueryWorld Unit :=
  { embedQ := fun _ => (), embedFails := false, search := fun _ _ => [],
    searchFails := false, completion := fun _ _ => "answer",
    completionFails := false }

/-- A plain upload world. -/
def plainUploadWorld : UploadWorld :=
  { uuid := "0000", s3keys := fun _ => [] }

/-- C5 witness: each of the three implications discharged at a concrete
request lacking a field. -/
theorem missing_required_fields_behavior_witness :
    (lambda_handler_ingest emptyListingWorld
        { bucket_name := none, user_id := some "u", context_id := some "c",
          name := some "n" }).resp = ⟨500, "An error occurred"⟩
    ∧ (lambda_handler_query calmQueryWorld
        { collection_name := none, question := some "q" }).resp.statusCode = 500
    ∧ (lambda_handler_upload plainUploadWorld
        { bucket_name := none, user_id := some "u", context_id := some "c",
          name := some "n", action := none, files := none }).resp
        = ⟨400, "Bucket name, user ID, context ID, and name are required."⟩ :=
  ⟨((missing_required_fields_behavior emptyListingWorld calmQueryWorld
      plainUploadWorld
      { bucket_name := none, user_id := some "u", context_id := some "c",
        name := some "n" }
      { collection_name := none, question := some "q" }
      { bucket_name := none, user_id := some "u", context_id := some "c",
        name := some "n", action := none, files := none }).1 (Or.inl rfl)).1,
   ((missing_required_fields_behavior emptyListingWorld calmQueryWorld
      plainUploadWorld
      { bucket_name := none, user_id := some "u", context_id := some "c",
        name := some "n" }
      { collection_name := none, question := some "q" }
      { bucket_name := none, user_id := some "u", context_id := some "c",
        name := some "n", action := none, files := none }).2.1
      (Or.inl rfl)).1,
   ((missing_required_fields_behavior emptyListingWorld calmQueryWorld
      plainUploadWorld
      { bucket_name := none, user_id := some "u", context_id := some "c",
        name := some "n" }
      { collection_name := none, question := some "q" }
      { bucket_name := none, user_id := some "u", context_id := some "c",
        name := some "n", action := none, files := none }).2.2
      (Or.inl rfl)).1⟩

/-! ### Query-path claims -/

/-- C8: a query whose similarity search returns zero results is answered with
404 and the completion provider is never invoked. -/
theorem query_no_results_404 {V : Type} (w : QueryWorld V)
    (req : QueryRequest) (cn q : String)
    (hcn : req.collection_name = some cn) (hq : req.question = some q)
    (he : w.embedFails = false) (hs : w.searchFails = false)
    (hsr : w.search cn (w.embedQ q) = []) :
    (lambda_handler_query w req).resp.statusCode = 404
    ∧ (lambda_handler_query w req).completionCalls = 0 := by
  unfold lambda_handler_query
  rw [hcn, hq]
  dsimp only
  unfold fetch_relevant_context
  rw [he, hs, hsr]
  dsimp only
  have hctx : truncate_context
      (joinTokens (([] : List SearchResult).map
        (fun r => r.payloadText.getD NO_TEXT_FOUND))) MAX_CONTEXT_TOKENS
      = [] := rfl
  rw [hctx]
  exact ⟨rfl, rfl⟩

/-- C8 witness: the no-result world at a complete query request. -/
theorem query_no_results_404_witness :
    (lambda_handler_query calmQueryWorld
        { collection_name := some "one_u_c", question := some "q" }).resp.statusCode
      = 404
    ∧ (lambda_handler_query calmQueryWorld
        { collection_name := some "one_u_c", question := some "q" }).completionCalls
      = 0 :=
  query_no_results_404 calmQueryWorld
    { collection_name := some "one_u_c", question := some "q" }
    "one_u_c" "q" rfl rfl rfl rfl rfl

/-- C10: a query whose search returns at least one result, all of whose
payloads lack the `text` field, assembles a nonempty context out of the
literal `"No text found"` placeholders, so the 404 branch is never taken and
the completion provider is invoked exactly once. -/
theorem query_placeholder_context {V : Type} (w : QueryWorld V)
    (req : QueryRequest) (cn q : String)
    (hcn : req.collection_name = some cn) (hq : req.question = some q)
    (he : w.embedFails = false) (hs : w.searchFails = false)
    (hne : w.search cn (w.embedQ q) ≠ [])
    (hall : ∀ r ∈ w.search cn (w.embedQ q), r.payloadText = none) :
    (lambda_handler_query w req).resp.statusCode ≠ 404
    ∧ (lambda_handler_query w req).completionCalls = 1 := by
  unfold lambda_handler_query
  rw [hcn, hq]
  unfold fetch_relevant_context
  rw [he, hs]
  simp only [Bool.false_eq_true, if_false]
  have hctx : truncate_context
      (joinTokens ((w.search cn (w.embedQ q)).map
        (fun r => r.payloadText.getD NO_TEXT_FOUND))) MAX_CONTEXT_TOKENS
      ≠ [] := by
    apply truncate_context_ne_nil
    · apply joinTokens_ne_nil
      · intro hcon
        exact hne (List.map_eq_nil_iff.mp hcon)
      · intro t ht
        obtain ⟨r, hr, hrt⟩ := List.mem_map.mp ht
        rw [hall r hr] at hrt
        rw [← hrt]
        decide
    · decide
  rw [if_neg hctx]
  by_cases hcf : w.completionFails
  · rw [if_pos hcf]
    exact ⟨by simp, rfl⟩
  · rw [if_neg hcf]
    exact ⟨by simp, rfl⟩

/-- A query world whose search returns one result whose payload lacks the
`text` field. -/
def placeholderQueryWorld : QueryWorld Unit :=
  { embedQ := fun _ => (), embedFails := false,
    search := fun _ _ => [{ payloadText := none }], searchFails := false,
    completion := fun _ _ => "answer", completionFails := false }

/-- C10 witness: one text-less search result still reaches the completion
provider. -/
theorem query_placeholder_context_witness :
    (lambda_handler_query placeholderQueryWorld
        { collection_name := some "one_u_c", question := some "q" }).resp.statusCode
      ≠ 404
    ∧ (lambda_handler_query placeholderQueryWorld
        { collection_name := some "one_u_c", question := some "q" }).completionCalls
      = 1 :=
  query_placeholder_context placeholderQueryWorld
    { collection_name := some "one_u_c", question := some "q" }
    "one_u_c" "q" rfl rfl rfl rfl (by decide) (by decide)

/-! ### Upload size ceiling -/

/-- C9: an upload whose files exceed 15 MiB of decoded content in total is
rejected with a 400 and its message before any object write — no partial
writes occur. -/
theorem upload_size_limit (w : UploadWorld) (req : UploadRequest)
    (b u c : String)
    (hb : req.bucket_name = some b) (hu : req.user_id = some u)
    (hc : req.context_id = some c)
    (hbne : b.isEmpty = false) (hune : u.isEmpty = false)
    (hcne : c.isEmpty = false)
    (hname : (req.name.getD ("default-" ++ w.uuid)).isEmpty = false)
    (haction : ¬ req.action.getD "upload" = "delete")
    (fs : List UploadFile) (hfs : req.files = some fs)
    (hsize : (fs.map (fun f => f.file_content.length)).sum
        > MAX_TOTAL_SIZE_BYTES) :
    (lambda_handler_upload w req).resp.statusCode = 400
    ∧ (lambda_handler_upload w req).resp.message
        = "Total file content exceeds 15 MB limit."
    ∧ (lambda_handler_upload w req).puts = [] := by
  unfold lambda_handler_upload
  rw [hb, hu, hc]
  dsimp only
  have hcond : (b.isEmpty || u.isEmpty || c.isEmpty
      || (req.name.getD ("default-" ++ w.uuid)).isEmpty) = false := by
    rw [hbne, hune, hcne, hname]
    rfl
  rw [hcond]
  simp only [Bool.false_eq_true, if_false]
  rw [if_neg haction, hfs]
  dsimp only
  rw [if_pos hsize]
  exact ⟨rfl, rfl, rfl⟩

/-- A single file whose decoded content is one byte over the ceiling. -/
def oversizedFile : UploadFile :=
  { file_name := "big.bin", file_content := List.replicate (15 * 1024 * 1024 + 1) 0 }

/-- An otherwise complete upload request carrying the oversized file. -/
def oversizedUploadReq : UploadRequest :=
  { bucket_name := some "bkt", user_id := some "u", context_id := some "c",
    name := some "n", action := none, files := some [oversizedFile] }

/-- C9 witness: a concrete 15 MiB + 1 byte upload is rejected with 400 and no
writes. -/
theorem upload_size_limit_witness :
    (lambda_handler_upload plainUploadWorld oversizedUploadReq).resp.statusCode
      = 400
    ∧ (lambda_handler_upload plainUploadWorld oversizedUploadReq).resp.message
      = "Total file content exceeds 15 MB limit."
    ∧ (lambda_handler_upload plainUploadWorld oversizedUploadReq).puts = [] :=
  upload_size_limit plainUploadWorld oversizedUploadReq "bkt" "u" "c"
    rfl rfl rfl rfl rfl rfl rfl (by decide) [oversizedFile] rfl
    (by norm_num [oversizedFile, MAX_TOTAL_SIZE_BYTES])

end DocMgmt
